import Mathlib

/-!
Verification development for the NairaSense tiered rate-resolution service.

Shallow embedding of `src/services/gemini.ts` (oracle response parsing,
retry wrapper, persistent-cache orchestrator `fetchRealTimeRate`) and of the
consumer session cache `loadData` in the application root component.

Modelling conventions:
* JavaScript numbers are modelled as exact rationals; `Option ℚ` with `none`
  standing for `NaN` is used where `parseFloat` can produce `NaN`
  (`Infinity`, which `parseFloat` can also produce, is not modelled: none of
  the inputs considered here produce it, and it is noted where relevant).
* The upstream oracle (`ai.models.generateContent`) and the persistent store
  (`supabase`) are opaque capabilities: their outcomes are supplied through a
  `FetchEnv` record, one outcome per oracle attempt index.
* Display-time formatting (`Date.toLocaleTimeString`) is an external runtime
  capability and is supplied as an abstract function `fmtTime` in `FetchEnv`.
-/

/-- JavaScript number produced by `parseFloat`-style coercion:
`none` models `NaN`, `some q` a finite number. -/
abbrev JsNum := Option ℚ

/-- Truthiness of a JS number: `0` and `NaN` are falsy. -/
def jsTruthyN (n : JsNum) : Bool :=
  match n with
  | none => false
  | some q => decide (q ≠ 0)

/-- Truthiness of a possibly-`undefined` JS number (`undefined`, `0`, `NaN` falsy). -/
def jsTruthyPar (p : Option JsNum) : Bool :=
  match p with
  | none => false
  | some n => jsTruthyN n

/-- Reciprocal `1 / x` on JS numbers; `1 / NaN = NaN`.  Only applied under guards that
exclude `0`, so the `ℚ` convention `1 / 0 = 0` is never reached. -/
def jsRecipN (n : JsNum) : JsNum :=
  match n with
  | none => none
  | some q => some (1 / q)

/-- JS comparison `x <= 0`; false for `NaN`. -/
def jsLe0 (n : JsNum) : Bool :=
  match n with
  | none => false
  | some q => decide (q ≤ 0)

/-- JS comparison `x > 0`; false for `NaN`. -/
def jsGt0 (n : JsNum) : Bool :=
  match n with
  | none => false
  | some q => decide (0 < q)

/-- A grounding citation (`types.ts` `Source`). -/
structure Source where
  title : String
  uri : String
deriving DecidableEq

/-- The resolved quote (`types.ts` `ExchangeData`).  `rate` is a JS number;
`parallelRate` is optional (outer `Option` = `undefined`). -/
structure ExchangeData where
  rate : JsNum
  parallelRate : Option JsNum
  summary : String
  lastUpdated : String
  sources : List Source
deriving DecidableEq

/-- JS `Error`-like value observed by `attemptAIFetchWithRetry`. -/
structure JsError where
  status : Option Nat
  code : Option Nat
  message : String
deriving DecidableEq

/-- Currency codes (`types.ts` `CurrencyCode`). -/
inductive CurrencyCode where
  | USD | NGN | EUR | GBP | CAD
deriving DecidableEq

def ccStr : CurrencyCode → String
  | .USD => "USD"
  | .NGN => "NGN"
  | .EUR => "EUR"
  | .GBP => "GBP"
  | .CAD => "CAD"

/-! ### String scanning utilities (models of the JS regex operations used) -/

/-- All indices `i` of `cs` at which `pat` occurs (as a contiguous sublist). -/
def occList (cs pat : List Char) : List Nat :=
  (List.range (cs.length + 1)).filter fun i => pat.isPrefixOf (cs.drop i)

/-- Is `pat` a substring of `s`?  Models JS `String.prototype.includes`. -/
def hasSub (pat s : String) : Bool :=
  !(occList s.data pat.data).isEmpty

/-- Whitespace stripped by JS `String.prototype.trim` (ASCII part). -/
def isJsWs (c : Char) : Bool :=
  c = ' ' || c = '\t' || c = '\n' || c = '\r' || c = '\x0b' || c = '\x0c'

/-- Model of JS `trim`. -/
def jsTrim (s : String) : String :=
  String.mk (((s.data.dropWhile isJsWs).reverse.dropWhile isJsWs).reverse)

/-- Numeric value of a list of decimal digits. -/
def digitsVal (ds : List Char) : Nat :=
  ds.foldl (fun a c => 10 * a + (c.toNat - 48)) 0

/-! ### JSON values and a model of `JSON.parse` -/

/-- JSON values as produced by `JSON.parse`. -/
inductive JVal where
  | null
  | bool (b : Bool)
  | num (q : ℚ)
  | str (s : String)
  | arr (elems : List JVal)
  | obj (fields : List (String × JVal))

/-- JS truthiness of a parsed JSON value. -/
def jsTruthyJson (v : JVal) : Bool :=
  match v with
  | .null => false
  | .bool b => b
  | .num q => decide (q ≠ 0)
  | .str s => decide (s ≠ "")
  | .arr _ => true
  | .obj _ => true

/-- Property lookup `v.k` on a parsed JSON value; `none` models `undefined`.
With duplicate keys `JSON.parse` keeps the last binding. -/
def jLookup (v : JVal) (k : String) : Option JVal :=
  match v with
  | .obj kvs => (kvs.reverse.find? fun p => p.1 = k).map Prod.snd
  | _ => none

/-- JSON token whitespace. -/
def jsonWs (c : Char) : Bool :=
  c = ' ' || c = '\t' || c = '\n' || c = '\r'

/-- Single-character JSON string escapes. -/
def escChar (c : Char) : Option Char :=
  if c = '"' then some '"'
  else if c = '\\' then some '\\'
  else if c = '/' then some '/'
  else if c = 'b' then some (Char.ofNat 8)
  else if c = 'f' then some (Char.ofNat 12)
  else if c = 'n' then some '\n'
  else if c = 'r' then some '\r'
  else if c = 't' then some '\t'
  else none

def hexVal (c : Char) : Option Nat :=
  if c.isDigit then some (c.toNat - 48)
  else if 'a' ≤ c ∧ c ≤ 'f' then some (c.toNat - 87)
  else if 'A' ≤ c ∧ c ≤ 'F' then some (c.toNat - 55)
  else none

/-- Body of a JSON string after the opening quote: returns the decoded
characters and the remainder after the closing quote. -/
def parseJStringBody : List Char → Option (List Char × List Char)
  | [] => none
  | '"' :: rest => some ([], rest)
  | '\\' :: 'u' :: h1 :: h2 :: h3 :: h4 :: rest =>
    match hexVal h1, hexVal h2, hexVal h3, hexVal h4 with
    | some a, some b, some c, some d =>
      (parseJStringBody rest).map fun p =>
        (Char.ofNat (((a * 16 + b) * 16 + c) * 16 + d) :: p.1, p.2)
    | _, _, _, _ => none
  | '\\' :: e :: rest =>
    match escChar e with
    | some c => (parseJStringBody rest).map fun p => (c :: p.1, p.2)
    | none => none
  | c :: rest =>
    if c.toNat < 32 then none
    else (parseJStringBody rest).map fun p => (c :: p.1, p.2)

/-- JSON number: `-?(0|[1-9][0-9]*)(\.[0-9]+)?([eE][+-]?[0-9]+)?`. -/
def parseJNumber (cs : List Char) : Option (ℚ × List Char) :=
  let (sg, cs1) : ℚ × List Char :=
    match cs with
    | '-' :: r => (-1, r)
    | _ => (1, cs)
  match cs1 with
  | c :: _ =>
    if ¬ c.isDigit then none
    else
      let ip := cs1.takeWhile Char.isDigit
      let ipOk := ip = ['0'] ∨ c ≠ '0'
      if ¬ ipOk then none
      else
        let cs2 := cs1.drop ip.length
        let (fp, cs3) : List Char × List Char :=
          match cs2 with
          | '.' :: r =>
            let f := r.takeWhile Char.isDigit
            (f, r.drop f.length)
          | _ => ([], cs2)
        if cs2 ≠ cs3 ∧ fp.isEmpty then none
        else
          let mant : ℚ := (digitsVal ip : ℚ) + (digitsVal fp : ℚ) / (10 : ℚ) ^ fp.length
          let (e, cs4) : ℤ × List Char :=
            match cs3 with
            | 'e' :: '+' :: r | 'E' :: '+' :: r =>
              let ds := r.takeWhile Char.isDigit
              if ds.isEmpty then (0, cs3) else ((digitsVal ds : ℤ), r.drop ds.length)
            | 'e' :: '-' :: r | 'E' :: '-' :: r =>
              let ds := r.takeWhile Char.isDigit
              if ds.isEmpty then (0, cs3) else (-(digitsVal ds : ℤ), r.drop ds.length)
            | 'e' :: r | 'E' :: r =>
              let ds := r.takeWhile Char.isDigit
              if ds.isEmpty then (0, cs3) else ((digitsVal ds : ℤ), r.drop ds.length)
            | _ => (0, cs3)
          some (sg * mant * (10 : ℚ) ^ e, cs4)
  | [] => none

mutual

/-- Fuel-indexed model of `JSON.parse` value parsing. -/
def parseJVal : Nat → List Char → Option (JVal × List Char)
  | 0, _ => none
  | fuel + 1, cs0 =>
    let cs := cs0.dropWhile jsonWs
    match cs with
    | 'n' :: 'u' :: 'l' :: 'l' :: r => some (.null, r)
    | 't' :: 'r' :: 'u' :: 'e' :: r => some (.bool true, r)
    | 'f' :: 'a' :: 'l' :: 's' :: 'e' :: r => some (.bool false, r)
    | '"' :: r =>
      (parseJStringBody r).map fun p => (.str (String.mk p.1), p.2)
    | '[' :: r =>
      let r1 := r.dropWhile jsonWs
      match r1 with
      | ']' :: r2 => some (.arr [], r2)
      | _ =>
        match parseJArrElems fuel r1 with
        | some (vs, rest) => some (.arr vs, rest)
        | none => none
    | '\x7b' :: r =>
      let r1 := r.dropWhile jsonWs
      match r1 with
      | '\x7d' :: r2 => some (.obj [], r2)
      | _ =>
        match parseJObjFields fuel r1 with
        | some (kvs, rest) => some (.obj kvs, rest)
        | none => none
    | _ =>
      match parseJNumber cs with
      | some (q, rest) => some (.num q, rest)
      | none => none

/-- One-or-more comma-separated array elements followed by `]`. -/
def parseJArrElems : Nat → List Char → Option (List JVal × List Char)
  | 0, _ => none
  | fuel + 1, cs =>
    match parseJVal fuel cs with
    | none => none
    | some (v, rest) =>
      let rest1 := rest.dropWhile jsonWs
      match rest1 with
      | ']' :: r2 => some ([v], r2)
      | ',' :: r2 =>
        match parseJArrElems fuel r2 with
        | some (vs, r3) => some (v :: vs, r3)
        | none => none
      | _ => none

/-- One-or-more comma-separated `"key": value` fields followed by `}`. -/
def parseJObjFields : Nat → List Char → Option (List (String × JVal) × List Char)
  | 0, _ => none
  | fuel + 1, cs =>
    let cs1 := cs.dropWhile jsonWs
    match cs1 with
    | '"' :: r =>
      match parseJStringBody r with
      | none => none
      | some (key, r1) =>
        let r2 := r1.dropWhile jsonWs
        match r2 with
        | ':' :: r3 =>
          match parseJVal fuel r3 with
          | none => none
          | some (v, r4) =>
            let r5 := r4.dropWhile jsonWs
            match r5 with
            | '\x7d' :: r6 => some ([(String.mk key, v)], r6)
            | ',' :: r6 =>
              match parseJObjFields fuel r6 with
              | some (kvs, r7) => some ((String.mk key, v) :: kvs, r7)
              | none => none
            | _ => none
        | _ => none
    | _ => none

end

/-- Model of `JSON.parse`: `none` models a thrown `SyntaxError`. -/
def jsonParse (s : String) : Option JVal :=
  match parseJVal (2 * (s.data.length + 1)) s.data with
  | some (v, rest) => if (rest.dropWhile jsonWs).isEmpty then some v else none
  | none => none

/-! ### `parseFloat` -/

/-- Model of JS `parseFloat` on a string: skip leading whitespace, optional
sign, longest decimal prefix (with optional fraction and exponent); `none`
models `NaN`.  The `Infinity` literal is not modelled (no input considered
here contains it). -/
def jsParseFloat (s : String) : Option ℚ :=
  let cs := s.data.dropWhile isJsWs
  let (sg, cs1) : ℚ × List Char :=
    match cs with
    | '-' :: r => (-1, r)
    | '+' :: r => (1, r)
    | _ => (1, cs)
  let ip := cs1.takeWhile Char.isDigit
  let cs2 := cs1.drop ip.length
  let (fp, cs3) : List Char × List Char :=
    match cs2 with
    | '.' :: r => (r.takeWhile Char.isDigit, r.drop (r.takeWhile Char.isDigit).length)
    | _ => ([], cs2)
  if ip.isEmpty ∧ fp.isEmpty then none
  else
    let mant : ℚ := (digitsVal ip : ℚ) + (digitsVal fp : ℚ) / (10 : ℚ) ^ fp.length
    let e : ℤ :=
      match cs3 with
      | 'e' :: '+' :: r | 'E' :: '+' :: r =>
        let ds := r.takeWhile Char.isDigit
        if ds.isEmpty then 0 else (digitsVal ds : ℤ)
      | 'e' :: '-' :: r | 'E' :: '-' :: r =>
        let ds := r.takeWhile Char.isDigit
        if ds.isEmpty then 0 else -(digitsVal ds : ℤ)
      | 'e' :: r | 'E' :: r =>
        let ds := r.takeWhile Char.isDigit
        if ds.isEmpty then 0 else (digitsVal ds : ℤ)
      | _ => 0
    some (sg * mant * (10 : ℚ) ^ e)

/-- Model of `parseFloat(x)` for `x` a parsed JSON value (JS first coerces
`x` to a string: numbers round-trip, arrays stringify as their elements
joined by commas so `parseFloat` reads the first element, and `null`,
booleans and objects stringify to non-numeric text, giving `NaN`). -/
def jsParseFloatOfJson : JVal → Option ℚ
  | .num q => some q
  | .str s => jsParseFloat s
  | .arr [] => none
  | .arr (x :: _) => jsParseFloatOfJson x
  | _ => none

/-! ### Models of the regex operations in `fetchFromAI` -/

/-- First match of `/```json\n([\s\S]*?)\n```/`: returns
`(whole match, capture group 1)`.  The regex is lazy, so the capture runs to
the first later occurrence of a newline-fence; a later opening fence cannot
match if the first one cannot. -/
def fencedMatch (t : String) : Option (String × String) :=
  let cs := t.data
  match (occList cs ("```json\n".data)).head? with
  | none => none
  | some i =>
    let tl := cs.drop (i + 8)
    match (occList tl ("\n```".data)).head? with
    | none => none
    | some j => some (String.mk ((cs.drop i).take (8 + j + 4)), String.mk (tl.take j))

/-- First match of the greedy `/{[\s\S]*"rate"[\s\S]*}/` (no capture group).
A match, if any, starts at the first brace, needs a later `"rate"` literal,
and (being greedy) runs to the last closing brace. -/
def objectRateMatch (t : String) : Option String :=
  let cs := t.data
  match (occList cs ['\x7b']).head? with
  | none => none
  | some i =>
    match (occList cs ['\x7d']).getLast? with
    | none => none
    | some k =>
      match ((occList cs ("\"rate\"".data)).filter fun r => i + 1 ≤ r ∧ r + 6 ≤ k).getLast? with
      | none => none
      | some _ => some (String.mk ((cs.drop i).take (k + 1 - i)))

/-- Model of the match chain: the fenced-block regex, else the greedy
object regex, as `(whole, optional capture)`. -/
def jsonMatchOf (t : String) : Option (String × Option String) :=
  match fencedMatch t with
  | some (w, g) => some (w, some g)
  | none => (objectRateMatch t).map fun w => (w, none)

/-- Selection `jsonMatch[1] || jsonMatch[0]`: the capture if truthy (non-empty), else
the whole match. -/
def jsonStrOf (h : String × Option String) : String :=
  match h.2 with
  | some g => if g ≠ "" then g else h.1
  | none => h.1

/-- Fuel-indexed scan for `stripYears` (each step consumes at least one
leading character, so fuel = length suffices). -/
def stripYearsF : Nat → List Char → List Char
  | 0, cs => cs
  | _ + 1, [] => []
  | fuel + 1, '2' :: '0' :: '2' :: d :: rest =>
    if d.isDigit then stripYearsF fuel rest
    else '2' :: stripYearsF fuel ('0' :: '2' :: d :: rest)
  | fuel + 1, c :: rest => c :: stripYearsF fuel rest

/-- Model of the year strip `text.replace(/202[0-9]/g, ...)`: drop every (leftmost, non-overlapping)
four-character year 2020–2029. -/
def stripYears (cs : List Char) : List Char := stripYearsF cs.length cs

/-- Thousands groups `(,\d{3})*`: consume as many `,ddd` blocks as possible. -/
def matchNumGroups : Nat → List Char → List Char × List Char
  | 0, cs => ([], cs)
  | fuel + 1, cs =>
    match cs with
    | ',' :: d1 :: d2 :: d3 :: rest =>
      if d1.isDigit ∧ d2.isDigit ∧ d3.isDigit then
        let (g, r) := matchNumGroups fuel rest
        (',' :: d1 :: d2 :: d3 :: g, r)
      else ([], cs)
    | _ => ([], cs)

/-- Match of `/\d{1,3}(,\d{3})*(\.\d+)?/` anchored at the head of `cs`
(greedy; the tail parts are nullable so no backtracking arises):
returns `(matched characters, remainder)`. -/
def matchNumAt (cs : List Char) : Option (List Char × List Char) :=
  let ds := (cs.takeWhile Char.isDigit).take 3
  if ds.isEmpty then none
  else
    let rest1 := cs.drop ds.length
    let (g, rest2) := matchNumGroups rest1.length rest1
    let (f, rest3) : List Char × List Char :=
      match rest2 with
      | '.' :: more =>
        let fd := more.takeWhile Char.isDigit
        if fd.isEmpty then ([], rest2) else ('.' :: fd, more.drop fd.length)
      | _ => ([], rest2)
    some (ds ++ g ++ f, rest3)

/-- All matches of `/(\d{1,3}(,\d{3})*(\.\d+)?)/g`: leftmost, non-overlapping,
resuming after each match. -/
def globalNumMatches : Nat → List Char → List (List Char)
  | 0, _ => []
  | _, [] => []
  | fuel + 1, c :: rest =>
    match matchNumAt (c :: rest) with
    | some (m, r) => m :: globalNumMatches fuel r
    | none => globalNumMatches fuel rest

/-- Value `parseFloat(m.replace(/,/g, ...))` of a token matched by the pattern
above: commas removed, integer part plus optional fraction. -/
def tokenVal (m : List Char) : ℚ :=
  let m1 := m.filter fun c => c ≠ ','
  let ip := m1.takeWhile fun c => c ≠ '.'
  let fp := (m1.dropWhile fun c => c ≠ '.').drop 1
  (digitsVal ip : ℚ) + (digitsVal fp : ℚ) / (10 : ℚ) ^ fp.length

/-- The candidate filter `n > 0 && n < 10000 && !Number.isInteger(n)
&& n !== 2024 && n !== 2025`. -/
def validRate (n : ℚ) : Bool :=
  decide (0 < n) && decide (n < 10000) && !(decide (n.den = 1)) &&
    decide (n ≠ 2024) && decide (n ≠ 2025)

/-- The regex-fallback extraction (lines 84–93 of `gemini.ts`): strip years,
collect thousands-grouped tokens, take the first valid candidate. -/
def regexRate (text : String) : Option ℚ :=
  let clean := stripYears text.data
  (((globalNumMatches clean.length clean).map tokenVal).find? validRate)

/-- Model of the summary strip `summaryText.replace(/```json[\s\S]*```/, ...)`: greedy, first opening
fence to the last triple-backtick at least seven characters later. -/
def stripJsonFence (s : String) : String :=
  let cs := s.data
  match (occList cs ("```json".data)).head? with
  | none => s
  | some i =>
    match ((occList cs ("```".data)).filter fun j => i + 7 ≤ j).getLast? with
    | none => s
    | some j => String.mk (cs.take i ++ cs.drop (j + 3))

/-! ### `fetchFromAI` (gemini.ts lines 18–107)

The prompt construction and the network call are not modelled: the oracle is
an opaque capability whose outcome (raw text plus grounding chunks, or a
thrown error) is supplied by the environment, one outcome per attempt. -/

/-- Oracle response: raw text and grounding chunks (`chunk.web` present or
not; chunks without a web field are discarded by the source). -/
structure OracleResponse where
  text : String
  chunks : List (Option Source)
deriving DecidableEq

/-- Error thrown by `fetchFromAI` when the detected rate is zero (line 97). -/
def zeroRateError : JsError := ⟨none, none, "AI returned 0 rate"⟩

/-- The `TypeError` thrown by `summaryText.replace` when the JSON block carried a
truthy non-string `summary` value (line 103). -/
def summaryTypeError : JsError := ⟨none, none, "summaryText.replace is not a function"⟩

/-- Result of `const parsed = JSON.parse(jsonMatch[1] || jsonMatch[0])`; `none` when
there was no match or parsing threw (the `catch` keeps the defaults). -/
def jsonParsedOf (text : String) : Option JVal :=
  (jsonMatchOf text).bind fun h => jsonParse (jsonStrOf h)

/-- Value of `detectedRate` after the JSON path (initial value `0`; set to
`parseFloat(parsed.rate)` only when `parsed.rate` is truthy). -/
def jsonRateOf (text : String) : JsNum :=
  match jsonParsedOf text with
  | some v =>
    match jLookup v "rate" with
    | some rv => if jsTruthyJson rv then jsParseFloatOfJson rv else some 0
    | none => some 0
  | none => some 0

/-- Value of `parallelRate` after the JSON path (`undefined` unless `parsed.parallelRate`
is truthy). -/
def parallelRateOf (text : String) : Option JsNum :=
  match jsonParsedOf text with
  | some v =>
    match jLookup v "parallelRate" with
    | some pv => if jsTruthyJson pv then some (jsParseFloatOfJson pv) else none
    | none => none
  | none => none

/-- What `summaryText` holds after the JSON path: the raw text, a string from
`parsed.summary`, or (for a truthy non-string `parsed.summary`) a value on
which the final `.replace` call throws a `TypeError`. -/
inductive SummarySel where
  | keep
  | useStr (s : String)
  | crash
deriving DecidableEq

def summarySelOf (text : String) : SummarySel :=
  match jsonParsedOf text with
  | some v =>
    match jLookup v "summary" with
    | some (.str s) => if s = "" then .keep else .useStr s
    | some sv => if jsTruthyJson sv then .crash else .keep
    | none => .keep
  | none => .keep

/-- The summary text the source would feed to `.replace` / return. -/
def chosenSummaryText (text : String) : String :=
  match summarySelOf text with
  | .useStr s => s
  | _ => text

/-- Value of `detectedRate` after both paths: the JSON rate if truthy, else the regex
extraction result if any, else the JSON-path value (`0` or `NaN`). -/
def detectedRateOf (text : String) : JsNum :=
  if jsTruthyN (jsonRateOf text) then jsonRateOf text
  else
    match regexRate text with
    | some v => some v
    | none => jsonRateOf text

/-- Parsing part of `fetchFromAI` (lines 52–106), given a delivered response. -/
def parseOracleResponse (resp : OracleResponse) (nowStr : String) : Except JsError ExchangeData :=
  if detectedRateOf resp.text = some 0 then .error zeroRateError
  else
    match summarySelOf resp.text with
    | .crash => .error summaryTypeError
    | .keep =>
      .ok { rate := detectedRateOf resp.text
            parallelRate := parallelRateOf resp.text
            summary := jsTrim (stripJsonFence (chosenSummaryText resp.text))
            lastUpdated := nowStr
            sources := resp.chunks.filterMap id }
    | .useStr _ =>
      .ok { rate := detectedRateOf resp.text
            parallelRate := parallelRateOf resp.text
            summary := jsTrim (stripJsonFence (chosenSummaryText resp.text))
            lastUpdated := nowStr
            sources := resp.chunks.filterMap id }

/-- Model of `fetchFromAI` at attempt `idx`: the oracle call outcome comes from
`oracleAt idx`; a thrown call error propagates, a delivered response is
parsed. -/
def fetchFromAI (oracleAt : Nat → Except JsError OracleResponse) (nowStr : String)
    (idx : Nat) : Except JsError ExchangeData :=
  match oracleAt idx with
  | .error e => .error e
  | .ok resp => parseOracleResponse resp nowStr

/-! ### `attemptAIFetchWithRetry` (lines 110–123) -/

/-- The rate-limit signal test (line 114). -/
def isQuota (e : JsError) : Bool :=
  e.status = some 429 || e.code = some 429 ||
    (decide (e.message ≠ "") && (hasSub "429" e.message || hasSub "quota" e.message))

instance {ε α : Type} [DecidableEq ε] [DecidableEq α] : DecidableEq (Except ε α) := fun a b =>
  match a, b with
  | .ok x, .ok y => if h : x = y then isTrue (by rw [h]) else isFalse (by simp [h])
  | .error x, .error y => if h : x = y then isTrue (by rw [h]) else isFalse (by simp [h])
  | .ok _, .error _ => isFalse (by simp)
  | .error _, .ok _ => isFalse (by simp)

/-- Observable outcome of the retry wrapper: final result, number of
`fetchFromAI` invocations, and total backoff slept (ms). -/
structure RetryOut where
  res : Except JsError ExchangeData
  attempts : Nat
  sleptMs : Nat
deriving DecidableEq

/-- Model of `attemptAIFetchWithRetry`: one call; on a rate-limit-class failure with
budget remaining, sleep 2000 ms and recurse with the budget decremented. -/
def attemptAIFetchWithRetry (oracleAt : Nat → Except JsError OracleResponse)
    (nowStr : String) : Nat → Nat → RetryOut
  | retries, idx =>
    match fetchFromAI oracleAt nowStr idx with
    | .ok d => ⟨.ok d, 1, 0⟩
    | .error e =>
      match retries with
      | 0 => ⟨.error e, 1, 0⟩
      | r + 1 =>
        if isQuota e then
          let sub := attemptAIFetchWithRetry oracleAt nowStr r (idx + 1)
          ⟨sub.res, sub.attempts + 1, sub.sleptMs + 2000⟩
        else ⟨.error e, 1, 0⟩

/-! ### Data helpers (lines 126–141) -/

/-- Persistent cache record (`currency_rates` row; `updated_at` as a
millisecond epoch timestamp). -/
structure DbRecord where
  rate : ℚ
  parallel_rate : Option ℚ
  summary : String
  sources : List Source
  updated_at : Int
deriving DecidableEq

/-- Model of `mapDbToExchangeData` (lines 126–132); `dbData.parallel_rate || undefined`
turns `null` and `0` into `undefined`.  `fmt` models
`new Date(x).toLocaleTimeString()`. -/
def mapDbToExchangeData (fmt : Int → String) (d : DbRecord) : ExchangeData :=
  { rate := some d.rate
    parallelRate :=
      match d.parallel_rate with
      | some p => if p = 0 then none else some (some p)
      | none => none
    summary := d.summary
    lastUpdated := fmt d.updated_at
    sources := d.sources }

/-- Model of `invertExchangeData` (lines 134–141). -/
def invertExchangeData (d : ExchangeData) : ExchangeData :=
  if jsLe0 d.rate then d
  else
    { d with
      rate := jsRecipN d.rate
      parallelRate :=
        if jsTruthyPar d.parallelRate then
          match d.parallelRate with
          | some n => some (jsRecipN n)
          | none => none
        else none }

/-! ### `fetchRealTimeRate` (lines 143–241) -/

/-- The emergency static table (lines 8–13). -/
def EMERGENCY_RATES : String → Option ℚ := fun pair =>
  if pair = "USD-NGN" then some 1580
  else if pair = "GBP-NGN" then some 2050
  else if pair = "EUR-NGN" then some 1720
  else if pair = "CAD-NGN" then some 1150
  else none

def CACHE_DURATION_MS : Int := 30 * 60 * 1000

/-- Environment of one resolution: persistent-cache read outcome per key
(`none` covers not-found, a read error and a thrown read exception — all
treated identically by the source), oracle outcome per attempt index, the
clock, time formatting, and the fire-and-forget upsert outcome. -/
structure FetchEnv where
  cacheGet : String → Option DbRecord
  oracleAt : Nat → Except JsError OracleResponse
  nowMs : Int
  fmtTime : Int → String
  nowTimeStr : String
  writeErr : Option JsError

/-- The row passed to `supabase.from('currency_rates').upsert` (lines 191–198). -/
structure UpsertRow where
  pair : String
  rate : JsNum
  parallel_rate : Option ℚ
  summary : String
  sources : List Source
  updated_at : Int
deriving DecidableEq

/-- Observable outcome of one `fetchRealTimeRate` run: the returned value or
thrown error, the cache key read, the number of oracle attempts, the issued
upsert (if any), and the logged (never rethrown) write failure. -/
structure FetchOutcome where
  result : Except JsError ExchangeData
  readKey : String
  oracleCalls : Nat
  upsert : Option UpsertRow
  writeLog : Option JsError
deriving DecidableEq

/-- The upsert row built from a successful oracle result (lines 191–198):
`parallel_rate: aiResult.parallelRate || null`, `updated_at: now`. -/
def upsertRowOf (pairId : String) (nowMs : Int) (aiResult : ExchangeData) : UpsertRow :=
  { pair := pairId
    rate := aiResult.rate
    parallel_rate :=
      match aiResult.parallelRate with
      | some (some q) => if q = 0 then none else some q
      | some none => none
      | none => none
    summary := aiResult.summary
    sources := aiResult.sources
    updated_at := nowMs }

/-- Fallback 1 (lines 208–212): the stale record, with `" (Cached)"` appended
to the display timestamp. -/
def staleQuote (fmt : Int → String) (d : DbRecord) : ExchangeData :=
  let r0 := mapDbToExchangeData fmt d
  { r0 with lastUpdated := r0.lastUpdated ++ " (Cached)" }

/-- Fallback 2 (lines 214–222): the synthesized emergency quote. -/
def emergencyQuote (q : ℚ) : ExchangeData :=
  { rate := some q
    parallelRate := none
    summary := "High demand detected. Showing estimated market rates while we reconnect to live data."
    lastUpdated := "Offline Estimate"
    sources := [] }

/-- Steps 3–6 of `fetchRealTimeRate` (oracle fetch, persist, fallbacks) with
the retained `staleRecord`; entered only when no fresh cache hit occurred. -/
def afterCacheCheck (env : FetchEnv) (pairId : String) (staleRecord : Option DbRecord) :
    Except JsError ExchangeData × Nat × Option UpsertRow × Option JsError :=
  match (attemptAIFetchWithRetry env.oracleAt env.nowTimeStr 1 0).res with
  | .ok aiResult =>
    (.ok aiResult, (attemptAIFetchWithRetry env.oracleAt env.nowTimeStr 1 0).attempts,
     if jsGt0 aiResult.rate then some (upsertRowOf pairId env.nowMs aiResult) else none,
     if jsGt0 aiResult.rate then env.writeErr else none)
  | .error aiError =>
    match staleRecord with
    | some d =>
      (.ok (staleQuote env.fmtTime d),
       (attemptAIFetchWithRetry env.oracleAt env.nowTimeStr 1 0).attempts, none, none)
    | none =>
      match EMERGENCY_RATES pairId with
      | some er =>
        (.ok (emergencyQuote er),
         (attemptAIFetchWithRetry env.oracleAt env.nowTimeStr 1 0).attempts, none, none)
      | none =>
        (.error aiError,
         (attemptAIFetchWithRetry env.oracleAt env.nowTimeStr 1 0).attempts, none, none)

/-- Was the cache-check step a fresh hit (step 2, lines 160–181)? -/
def isFreshHit (env : FetchEnv) (pid : String) : Bool :=
  match env.cacheGet pid with
  | some d => decide (env.nowMs - d.updated_at < CACHE_DURATION_MS)
  | none => false

/-- Steps 2–6 for the canonical pair: cache check, then fresh hit or
`afterCacheCheck`.  (The final `throw new Error("Unexpected state")` of the
source at line 235 is unreachable: every non-throwing branch of step 3
assigns `resultToReturn`, so it has no counterpart here.) -/
def resolveCanonical (env : FetchEnv) (pairId : String) :
    Except JsError ExchangeData × Nat × Option UpsertRow × Option JsError :=
  match env.cacheGet pairId with
  | some d =>
    if env.nowMs - d.updated_at < CACHE_DURATION_MS then
      (.ok (mapDbToExchangeData env.fmtTime d), 0, none, none)
    else afterCacheCheck env pairId (some d)
  | none => afterCacheCheck env pairId none

/-- The canonical pair key `${searchFrom}-${searchTo}` (lines 145–156). -/
def canonicalPairId (frm t : CurrencyCode) : String :=
  if frm = CurrencyCode.NGN ∧ t ≠ CurrencyCode.NGN then ccStr t ++ "-" ++ ccStr frm
  else ccStr frm ++ "-" ++ ccStr t

/-- Step 7 applied to the requested direction. -/
def applyInv (frm t : CurrencyCode) (d : ExchangeData) : ExchangeData :=
  if frm = CurrencyCode.NGN ∧ t ≠ CurrencyCode.NGN then invertExchangeData d else d

/-- Model of `fetchRealTimeRate` (lines 143–241): canonicalize, resolve the canonical
pair, then invert if the requested direction was domestic→foreign. -/
def fetchRealTimeRate (env : FetchEnv) (frm t : CurrencyCode) : FetchOutcome :=
  let pairId := canonicalPairId frm t
  let r := resolveCanonical env pairId
  { result :=
      match r.1 with
      | .ok d => .ok (applyInv frm t d)
      | .error e => .error e
    readKey := pairId
    oracleCalls := r.2.1
    upsert := r.2.2.1
    writeLog := r.2.2.2 }

/-! ### Session-level cache (`loadData` in the root component)

The `ratesCache` ref is modelled as a lookup function; the orchestrator
outcome consulted on the fetch path is supplied as an argument. -/

/-- Observable outcome of one `loadData` run: cache after the run, the value
passed to `setData` (if any), the value passed to `setError` (if any), and
whether `fetchRealTimeRate` was invoked. -/
structure LoadOutcome where
  cache : String → Option ExchangeData
  dataSet : Option ExchangeData
  errorMsg : Option String
  invoked : Bool

/-- The on-the-fly inversion of the inverse-key cache hit:
`rate: invData.rate ? 1 / invData.rate : 0`,
`parallelRate: invData.parallelRate ? 1 / invData.parallelRate : undefined`. -/
def sessionInvert (invData : ExchangeData) : ExchangeData :=
  { invData with
    rate := if jsTruthyN invData.rate then jsRecipN invData.rate else some 0
    parallelRate :=
      if jsTruthyPar invData.parallelRate then
        match invData.parallelRate with
        | some n => some (jsRecipN n)
        | none => none
      else none }

/-- The proactively cached inverse stored after a successful fetch (only
under the `result.rate > 0` guard): `rate: 1 / result.rate`. -/
def proactiveInverse (result : ExchangeData) : ExchangeData :=
  { result with
    rate := jsRecipN result.rate
    parallelRate :=
      if jsTruthyPar result.parallelRate then
        match result.parallelRate with
        | some n => some (jsRecipN n)
        | none => none
      else none }

def updateCache (c : String → Option ExchangeData) (k : String) (v : ExchangeData) :
    String → Option ExchangeData :=
  fun k2 => if k2 = k then some v else c k2

def genericErrorMsg : String :=
  "Unable to retrieve real-time data. Please check your connection or try again later."

/-- Step 2 of `loadData`: invoke the orchestrator; on success store the quote
and (when `rate > 0`) its inverse; on failure set the generic error and leave
the cache untouched. -/
def loadFetch (cache : String → Option ExchangeData) (cacheKey inverseKey : String)
    (fetchResult : Except JsError ExchangeData) : LoadOutcome :=
  match fetchResult with
  | .ok result =>
    let c1 := updateCache cache cacheKey result
    let c2 :=
      if jsGt0 result.rate then updateCache c1 inverseKey (proactiveInverse result)
      else c1
    ⟨c2, some result, none, true⟩
  | .error _ => ⟨cache, none, some genericErrorMsg, true⟩

/-- Model of `loadData(forceRefresh)` for the pair held in component state. -/
def loadData (cache : String → Option ExchangeData) (frm t : CurrencyCode)
    (forceRefresh : Bool) (fetchResult : Except JsError ExchangeData) : LoadOutcome :=
  let cacheKey := ccStr frm ++ "-" ++ ccStr t
  let inverseKey := ccStr t ++ "-" ++ ccStr frm
  if forceRefresh then loadFetch cache cacheKey inverseKey fetchResult
  else
    match cache cacheKey with
    | some d => ⟨cache, some d, none, false⟩
    | none =>
      match cache inverseKey with
      | some invData =>
        let invertedData := sessionInvert invData
        ⟨updateCache cache cacheKey invertedData, some invertedData, none, false⟩
      | none => loadFetch cache cacheKey inverseKey fetchResult

/-! ## Theorems -/

/-- C4: for every quote, the inversion step maps `rate` to `1/rate` only when
`rate > 0` and is a no-op returning the original quote when `rate` is zero or
negative; when it inverts, `parallelRate` is mapped to `1/parallelRate` when
present (and nonzero, the only case in which a reciprocal exists), and
`summary`, `sources` and `lastUpdated` are left unchanged. -/
theorem invertExchangeData_correct (d : ExchangeData) :
    (∀ r : ℚ, d.rate = some r → r ≤ 0 → invertExchangeData d = d) ∧
    (∀ r : ℚ, d.rate = some r → 0 < r →
      (invertExchangeData d).rate = some (1 / r) ∧
      (invertExchangeData d).summary = d.summary ∧
      (invertExchangeData d).sources = d.sources ∧
      (invertExchangeData d).lastUpdated = d.lastUpdated ∧
      (d.parallelRate = none → (invertExchangeData d).parallelRate = none) ∧
      (∀ p : ℚ, d.parallelRate = some (some p) → p ≠ 0 →
        (invertExchangeData d).parallelRate = some (some (1 / p)))) := by
  constructor
  · intro r hr hle
    simp [invertExchangeData, jsLe0, hr, hle]
  · intro r hr hpos
    have hn : ¬ r ≤ 0 := not_le.mpr hpos
    refine ⟨?_, ?_, ?_, ?_, ?_, ?_⟩
    · simp [invertExchangeData, jsLe0, jsRecipN, hr, hn]
    · simp [invertExchangeData, jsLe0, hr, hn]
    · simp [invertExchangeData, jsLe0, hr, hn]
    · simp [invertExchangeData, jsLe0, hr, hn]
    · intro hp
      simp [invertExchangeData, jsLe0, jsTruthyPar, hr, hn, hp]
    · intro p hp hpne
      simp [invertExchangeData, jsLe0, jsTruthyPar, jsTruthyN, jsRecipN, hr, hn, hp, hpne]

/-- Witness for C4 at concrete inputs: a negative-rate quote is left
unchanged, and a positive-rate quote with a parallel rate is inverted
componentwise. -/
theorem invertExchangeData_correct_witness :
    invertExchangeData ⟨some (-2), some (some 3), "s", "t", []⟩ =
      ⟨some (-2), some (some 3), "s", "t", []⟩ ∧
    (invertExchangeData ⟨some 4, some (some 8), "s", "t", []⟩).rate = some (1 / 4) ∧
    (invertExchangeData ⟨some 4, some (some 8), "s", "t", []⟩).parallelRate = some (some (1 / 8)) :=
  ⟨(invertExchangeData_correct _).1 (-2) rfl (by norm_num),
   ((invertExchangeData_correct _).2 4 rfl (by norm_num)).1,
   (((invertExchangeData_correct _).2 4 rfl (by norm_num)).2.2.2.2.2 8 rfl (by norm_num))⟩

/-- C10 (amended): mapping a stored record with `parallel_rate` 0 or null
yields an absent `parallelRate`, and the session cache inversions and the
orchestrator inversion (whenever it inverts, i.e. `rate > 0`) map a zero
`parallelRate` to absent rather than to `1/0` or `0`.  (As stated the claim
is false: the non-inverted oracle path can surface `parallelRate = 0` when
the JSON block declares a truthy string that parses to zero — see the
counterexample.) -/
theorem parallelRate_zero_handling :
    (∀ (fmt : Int → String) (d : DbRecord),
      d.parallel_rate = some 0 ∨ d.parallel_rate = none →
        (mapDbToExchangeData fmt d).parallelRate = none) ∧
    (∀ q : ExchangeData, q.parallelRate = some (some 0) →
        (sessionInvert q).parallelRate = none) ∧
    (∀ q : ExchangeData, q.parallelRate = some (some 0) →
        (proactiveInverse q).parallelRate = none) ∧
    (∀ (q : ExchangeData) (r : ℚ), q.rate = some r → 0 < r →
        q.parallelRate = some (some 0) → (invertExchangeData q).parallelRate = none) := by
  refine ⟨?_, ?_, ?_, ?_⟩
  · intro fmt d h
    rcases h with h | h <;> simp [mapDbToExchangeData, h]
  · intro q h
    simp [sessionInvert, jsTruthyPar, jsTruthyN, h]
  · intro q h
    simp [proactiveInverse, jsTruthyPar, jsTruthyN, h]
  · intro q r hr hpos h
    have hn : ¬ r ≤ 0 := not_le.mpr hpos
    simp [invertExchangeData, jsLe0, jsTruthyPar, jsTruthyN, hr, hn, h]

/-- Witness for C10 (amended) at concrete inputs. -/
theorem parallelRate_zero_handling_witness :
    (mapDbToExchangeData (fun _ => "") ⟨5, some 0, "", [], 0⟩).parallelRate = none ∧
    (sessionInvert ⟨some 2, some (some 0), "", "", []⟩).parallelRate = none ∧
    (invertExchangeData ⟨some 2, some (some 0), "", "", []⟩).parallelRate = none :=
  ⟨parallelRate_zero_handling.1 _ _ (Or.inl rfl),
   parallelRate_zero_handling.2.1 _ rfl,
   parallelRate_zero_handling.2.2.2 _ 2 rfl (by norm_num) rfl⟩

def envC10 : FetchEnv :=
  { cacheGet := fun _ => none
    oracleAt := fun _ =>
      .ok ⟨"```json\n\x7b\"rate\": 100.5, \"parallelRate\": \"0\"\x7d\n```", []⟩
    nowMs := 0
    fmtTime := fun _ => ""
    nowTimeStr := "now"
    writeErr := none }

/-- C10 counterexample: a resolution can surface a quote whose `parallelRate`
equals 0 — the oracle JSON carries `"parallelRate": "0"`, a truthy string
that `parseFloat` maps to `0`, and the non-inverted path returns it as-is. -/
theorem surfaced_zero_parallelRate :
    (fetchRealTimeRate envC10 CurrencyCode.USD CurrencyCode.NGN).result =
      .ok { rate := some (100.5 : ℚ), parallelRate := some (some 0), summary := ""
            lastUpdated := "now", sources := [] } := by
  with_unfolding_all decide

/-- C8 (amended): every quote produced by the oracle path has a nonzero
(possibly `NaN`, never exactly zero) rate — the zero detected rate is
rejected as a failure.  (As stated the claim is false: a negative
JSON-declared rate is not rejected, so a quote with `rate < 0` can reach the
public interface — see the counterexample.) -/
theorem oracle_path_rate_nonzero (o : Nat → Except JsError OracleResponse) (ns : String)
    (idx : Nat) (d : ExchangeData) (h : fetchFromAI o ns idx = .ok d) : d.rate ≠ some 0 := by
  cases ho : o idx with
  | error e => simp [fetchFromAI, ho] at h
  | ok resp =>
    simp only [fetchFromAI, ho] at h
    rw [parseOracleResponse] at h
    by_cases hz : detectedRateOf resp.text = some 0
    · rw [if_pos hz] at h; simp at h
    · rw [if_neg hz] at h
      cases hs : summarySelOf resp.text <;> rw [hs] at h
      · simp only [Except.ok.injEq] at h; subst h; simpa using hz
      · simp only [Except.ok.injEq] at h; subst h; simpa using hz
      · simp at h

/-- Witness for C8 (amended): the oracle path on a concrete response with a
negative JSON rate yields a quote whose rate is `-5`, which is nonzero. -/
theorem oracle_path_rate_nonzero_witness :
    (ExchangeData.mk (some (-5)) none "" "now" []).rate ≠ some 0 :=
  oracle_path_rate_nonzero
    (fun _ => .ok ⟨"```json\n\x7b\"rate\": -5\x7d\n```", []⟩) "now" 0 _
    (by with_unfolding_all decide)

def envC8 : FetchEnv :=
  { cacheGet := fun _ => none
    oracleAt := fun _ => .ok ⟨"```json\n\x7b\"rate\": -5\x7d\n```", []⟩
    nowMs := 0
    fmtTime := fun _ => ""
    nowTimeStr := "now"
    writeErr := none }

/-- C8 counterexample: a successful resolution whose quote has a strictly
negative rate — the oracle JSON declares `rate: -5`, the parser only rejects
an exactly-zero detected rate, and the orchestrator returns the result even
though `rate > 0` fails (it merely skips the upsert). -/
theorem negative_rate_surfaced :
    (fetchRealTimeRate envC8 CurrencyCode.USD CurrencyCode.NGN).result =
      .ok { rate := some (-5 : ℚ), parallelRate := none, summary := ""
            lastUpdated := "now", sources := [] } ∧
    ¬ (0 : ℚ) < -5 := by
  constructor
  · with_unfolding_all decide
  · norm_num



/-- Every retry-wrapper run makes at least one oracle attempt. -/
theorem retry_attempts_pos (o : Nat → Except JsError OracleResponse) (ns : String)
    (r idx : Nat) : 1 ≤ (attemptAIFetchWithRetry o ns r idx).attempts := by
  unfold attemptAIFetchWithRetry
  cases hf : fetchFromAI o ns idx with
  | ok d => simp
  | error e =>
    cases r with
    | zero => simp
    | succ r => by_cases hq : isQuota e <;> simp [hq]

/-- C5: the retry wrapper retries only on a rate-limit signal with positive
budget, waits a fixed 2000 ms backoff and decrements the budget; any
non-rate-limit error or budget exhaustion propagates immediately; with budget
1, a second consecutive 429 failure propagates after exactly one retry (two
attempts in total), and the run never inspects oracle outcomes beyond the
budgeted attempts (no third attempt). -/
theorem attemptAIFetchWithRetry_policy (o : Nat → Except JsError OracleResponse) (ns : String) :
    (∀ idx r d, fetchFromAI o ns idx = .ok d →
        attemptAIFetchWithRetry o ns r idx = ⟨.ok d, 1, 0⟩) ∧
    (∀ idx r e, fetchFromAI o ns idx = .error e → isQuota e = false →
        attemptAIFetchWithRetry o ns r idx = ⟨.error e, 1, 0⟩) ∧
    (∀ idx e, fetchFromAI o ns idx = .error e →
        attemptAIFetchWithRetry o ns 0 idx = ⟨.error e, 1, 0⟩) ∧
    (∀ idx r e, fetchFromAI o ns idx = .error e → isQuota e = true →
        attemptAIFetchWithRetry o ns (r + 1) idx =
          ⟨(attemptAIFetchWithRetry o ns r (idx + 1)).res,
           (attemptAIFetchWithRetry o ns r (idx + 1)).attempts + 1,
           (attemptAIFetchWithRetry o ns r (idx + 1)).sleptMs + 2000⟩) ∧
    (∀ e0 e1, fetchFromAI o ns 0 = .error e0 → isQuota e0 = true →
        fetchFromAI o ns 1 = .error e1 → isQuota e1 = true →
        attemptAIFetchWithRetry o ns 1 0 = ⟨.error e1, 2, 2000⟩) ∧
    (∀ (o2 : Nat → Except JsError OracleResponse) (r idx : Nat),
        (∀ j, j ≤ r → o (idx + j) = o2 (idx + j)) →
        attemptAIFetchWithRetry o ns r idx = attemptAIFetchWithRetry o2 ns r idx) := by
  refine ⟨?_, ?_, ?_, ?_, ?_, ?_⟩
  · intro idx r d h
    unfold attemptAIFetchWithRetry
    rw [h]
  · intro idx r e h hq
    unfold attemptAIFetchWithRetry
    rw [h]
    cases r with
    | zero => rfl
    | succ r => simp [hq]
  · intro idx e h
    unfold attemptAIFetchWithRetry
    rw [h]
  · intro idx r e h hq
    rw [attemptAIFetchWithRetry, h]
    simp [hq]
  · intro e0 e1 h0 hq0 h1 hq1
    simp [attemptAIFetchWithRetry, h0, h1, hq0, hq1]
  · intro o2 r idx hagree
    induction r generalizing idx with
    | zero =>
      have h0 : fetchFromAI o ns idx = fetchFromAI o2 ns idx := by
        unfold fetchFromAI
        rw [show o idx = o2 idx by simpa using hagree 0 (Nat.zero_le _)]
      unfold attemptAIFetchWithRetry
      rw [h0]
    | succ r ih =>
      have h0 : fetchFromAI o ns idx = fetchFromAI o2 ns idx := by
        unfold fetchFromAI
        rw [show o idx = o2 idx by simpa using hagree 0 (Nat.zero_le _)]
      have ih2 : attemptAIFetchWithRetry o ns r (idx + 1) =
          attemptAIFetchWithRetry o2 ns r (idx + 1) := by
        apply ih
        intro j hj
        have h := hagree (j + 1) (by omega)
        rwa [show idx + (j + 1) = idx + 1 + j by omega] at h
      unfold attemptAIFetchWithRetry
      rw [h0]
      cases hf : fetchFromAI o2 ns idx with
      | ok d => rfl
      | error e =>
        by_cases hq : isQuota e
        · simp [hq, ih2]
        · simp [hq]

/-- Witness for C5: a concrete oracle that always throws a 429-status error,
with budget 1, yields the second error after exactly two attempts and one
2000 ms backoff. -/
theorem attemptAIFetchWithRetry_policy_witness :
    attemptAIFetchWithRetry (fun _ => .error ⟨some 429, none, ""⟩) "now" 1 0 =
      ⟨.error ⟨some 429, none, ""⟩, 2, 2000⟩ :=
  (attemptAIFetchWithRetry_policy (fun _ => .error ⟨some 429, none, ""⟩) "now").2.2.2.2.1
    ⟨some 429, none, ""⟩ ⟨some 429, none, ""⟩ rfl rfl rfl rfl

/-- A fresh cache hit returns the mapped record with no oracle call and no write. -/
theorem resolveCanonical_fresh (env : FetchEnv) (pid : String) (d : DbRecord)
    (hc : env.cacheGet pid = some d)
    (hf : env.nowMs - d.updated_at < CACHE_DURATION_MS) :
    resolveCanonical env pid = (.ok (mapDbToExchangeData env.fmtTime d), 0, none, none) := by
  unfold resolveCanonical
  simp [hc, hf]

/-- Without a fresh hit, resolution proceeds to the oracle step with the read
record retained as the stale fallback. -/
theorem resolveCanonical_noFresh (env : FetchEnv) (pid : String)
    (h : isFreshHit env pid = false) :
    resolveCanonical env pid = afterCacheCheck env pid (env.cacheGet pid) := by
  unfold resolveCanonical
  cases hc : env.cacheGet pid with
  | none => rfl
  | some d =>
    unfold isFreshHit at h
    rw [hc] at h
    simp only [decide_eq_false_iff_not] at h
    simp [hc, h]

/-- On oracle success the fresh result is returned and the upsert issued iff
`rate > 0`. -/
theorem afterCacheCheck_ok (env : FetchEnv) (pid : String) (st : Option DbRecord)
    (ai : ExchangeData)
    (hr : (attemptAIFetchWithRetry env.oracleAt env.nowTimeStr 1 0).res = .ok ai) :
    afterCacheCheck env pid st =
      (.ok ai, (attemptAIFetchWithRetry env.oracleAt env.nowTimeStr 1 0).attempts,
       if jsGt0 ai.rate then some (upsertRowOf pid env.nowMs ai) else none,
       if jsGt0 ai.rate then env.writeErr else none) := by
  unfold afterCacheCheck
  rw [hr]

/-- On oracle failure with a retained stale record, the stale fallback is
returned. -/
theorem afterCacheCheck_stale (env : FetchEnv) (pid : String) (d : DbRecord) (e : JsError)
    (hr : (attemptAIFetchWithRetry env.oracleAt env.nowTimeStr 1 0).res = .error e) :
    afterCacheCheck env pid (some d) =
      (.ok (staleQuote env.fmtTime d),
       (attemptAIFetchWithRetry env.oracleAt env.nowTimeStr 1 0).attempts, none, none) := by
  unfold afterCacheCheck
  rw [hr]

/-- On oracle failure with no stale record and an emergency entry, the
emergency quote is returned. -/
theorem afterCacheCheck_emergency (env : FetchEnv) (pid : String) (e : JsError) (q : ℚ)
    (hr : (attemptAIFetchWithRetry env.oracleAt env.nowTimeStr 1 0).res = .error e)
    (hq : EMERGENCY_RATES pid = some q) :
    afterCacheCheck env pid none =
      (.ok (emergencyQuote q),
       (attemptAIFetchWithRetry env.oracleAt env.nowTimeStr 1 0).attempts, none, none) := by
  unfold afterCacheCheck
  rw [hr, hq]

/-- On oracle failure with neither fallback, the oracle error propagates. -/
theorem afterCacheCheck_exhausted (env : FetchEnv) (pid : String) (e : JsError)
    (hr : (attemptAIFetchWithRetry env.oracleAt env.nowTimeStr 1 0).res = .error e)
    (hq : EMERGENCY_RATES pid = none) :
    afterCacheCheck env pid none =
      (.error e, (attemptAIFetchWithRetry env.oracleAt env.nowTimeStr 1 0).attempts,
       none, none) := by
  unfold afterCacheCheck
  rw [hr, hq]

/-- The oracle-attempt count of the post-cache step is the retry-wrapper
attempt count. -/
theorem afterCacheCheck_calls (env : FetchEnv) (pid : String) (st : Option DbRecord) :
    (afterCacheCheck env pid st).2.1 =
      (attemptAIFetchWithRetry env.oracleAt env.nowTimeStr 1 0).attempts := by
  unfold afterCacheCheck
  split
  · rfl
  · split
    · rfl
    · split <;> rfl

/-- C3: a cached canonical record strictly younger than 30 minutes is served
without invoking the oracle; otherwise (stale or missing) the oracle is
invoked, and a stale record read is retained as the fallback used when the
oracle fails. -/
theorem freshness_window_boundary (env : FetchEnv) (frm t : CurrencyCode) :
    (∀ d : DbRecord, env.cacheGet (canonicalPairId frm t) = some d →
      (env.nowMs - d.updated_at < CACHE_DURATION_MS →
        (fetchRealTimeRate env frm t).oracleCalls = 0 ∧
        (fetchRealTimeRate env frm t).result =
          .ok (applyInv frm t (mapDbToExchangeData env.fmtTime d))) ∧
      (¬ env.nowMs - d.updated_at < CACHE_DURATION_MS →
        1 ≤ (fetchRealTimeRate env frm t).oracleCalls ∧
        ∀ e, (attemptAIFetchWithRetry env.oracleAt env.nowTimeStr 1 0).res = .error e →
          (fetchRealTimeRate env frm t).result =
            .ok (applyInv frm t (staleQuote env.fmtTime d)))) ∧
    (env.cacheGet (canonicalPairId frm t) = none →
      1 ≤ (fetchRealTimeRate env frm t).oracleCalls) := by
  constructor
  · intro d hd
    constructor
    · intro hf
      have h := resolveCanonical_fresh env (canonicalPairId frm t) d hd hf
      constructor
      · simp [fetchRealTimeRate, h]
      · simp [fetchRealTimeRate, h]
    · intro hs
      have hnf : isFreshHit env (canonicalPairId frm t) = false := by
        unfold isFreshHit
        rw [hd]
        simpa using hs
      have h := resolveCanonical_noFresh env (canonicalPairId frm t) hnf
      constructor
      · have hcalls := afterCacheCheck_calls env (canonicalPairId frm t) (env.cacheGet (canonicalPairId frm t))
        have hpos := retry_attempts_pos env.oracleAt env.nowTimeStr 1 0
        simp only [fetchRealTimeRate, h]
        omega
      · intro e he
        have h2 := afterCacheCheck_stale env (canonicalPairId frm t) d e he
        rw [hd] at h
        simp [fetchRealTimeRate, h, h2]
  · intro hn
    have hnf : isFreshHit env (canonicalPairId frm t) = false := by
      unfold isFreshHit
      rw [hn]
    have h := resolveCanonical_noFresh env (canonicalPairId frm t) hnf
    have hcalls := afterCacheCheck_calls env (canonicalPairId frm t) (env.cacheGet (canonicalPairId frm t))
    have hpos := retry_attempts_pos env.oracleAt env.nowTimeStr 1 0
    simp only [fetchRealTimeRate, h]
    omega

def recC3 : DbRecord := { rate := 1500, parallel_rate := none, summary := "s", sources := [], updated_at := 0 }

def envC3fresh : FetchEnv :=
  { cacheGet := fun k => if k = "USD-NGN" then some recC3 else none
    oracleAt := fun _ => .error ⟨some 500, none, "boom"⟩
    nowMs := 1799000
    fmtTime := fun x => "T" ++ toString x
    nowTimeStr := "now"
    writeErr := none }

def envC3stale : FetchEnv := { envC3fresh with nowMs := 1801000 }

/-- Witness for C3: a record aged 29m59s is served with no oracle call; one
aged 30m01s triggers an oracle call and, the oracle failing, is served as
the stale fallback. -/
theorem freshness_window_boundary_witness :
    (fetchRealTimeRate envC3fresh CurrencyCode.USD CurrencyCode.NGN).oracleCalls = 0 ∧
    1 ≤ (fetchRealTimeRate envC3stale CurrencyCode.USD CurrencyCode.NGN).oracleCalls ∧
    (fetchRealTimeRate envC3stale CurrencyCode.USD CurrencyCode.NGN).result =
      .ok (applyInv CurrencyCode.USD CurrencyCode.NGN (staleQuote envC3stale.fmtTime recC3)) :=
  ⟨(((freshness_window_boundary envC3fresh CurrencyCode.USD CurrencyCode.NGN).1
      recC3 rfl).1 (by with_unfolding_all decide)).1,
   (((freshness_window_boundary envC3stale CurrencyCode.USD CurrencyCode.NGN).1
      recC3 rfl).2 (by with_unfolding_all decide)).1,
   (((freshness_window_boundary envC3stale CurrencyCode.USD CurrencyCode.NGN).1
      recC3 rfl).2 (by with_unfolding_all decide)).2 ⟨some 500, none, "boom"⟩
      (by with_unfolding_all rfl)⟩

/-- C1: when the oracle query (retry-wrapped, including the parser's
zero-rate failure signal) fails on a non-fresh resolution, the result is
built from the stale cache record when one was read, else from the emergency
table entry for the canonical key when one exists, and the oracle error is
rethrown only when neither exists; moreover that is the only way the caller
ever observes an error. -/
theorem oracle_failure_fallback_chain (env : FetchEnv) (frm t : CurrencyCode) :
    (∀ e, isFreshHit env (canonicalPairId frm t) = false →
      (attemptAIFetchWithRetry env.oracleAt env.nowTimeStr 1 0).res = .error e →
      ((∀ d, env.cacheGet (canonicalPairId frm t) = some d →
          (fetchRealTimeRate env frm t).result =
            .ok (applyInv frm t (staleQuote env.fmtTime d))) ∧
       (env.cacheGet (canonicalPairId frm t) = none →
          ∀ q, EMERGENCY_RATES (canonicalPairId frm t) = some q →
            (fetchRealTimeRate env frm t).result = .ok (applyInv frm t (emergencyQuote q))) ∧
       (env.cacheGet (canonicalPairId frm t) = none →
          EMERGENCY_RATES (canonicalPairId frm t) = none →
          (fetchRealTimeRate env frm t).result = .error e))) ∧
    (∀ e, (fetchRealTimeRate env frm t).result = .error e ↔
      (env.cacheGet (canonicalPairId frm t) = none ∧
       (attemptAIFetchWithRetry env.oracleAt env.nowTimeStr 1 0).res = .error e ∧
       EMERGENCY_RATES (canonicalPairId frm t) = none)) := by
  constructor
  · intro e hnf he
    have hres := resolveCanonical_noFresh env (canonicalPairId frm t) hnf
    refine ⟨?_, ?_, ?_⟩
    · intro d hd
      rw [hd] at hres
      have h2 := afterCacheCheck_stale env (canonicalPairId frm t) d e he
      simp [fetchRealTimeRate, hres, h2]
    · intro hn q hq
      rw [hn] at hres
      have h2 := afterCacheCheck_emergency env (canonicalPairId frm t) e q he hq
      simp [fetchRealTimeRate, hres, h2]
    · intro hn hq
      rw [hn] at hres
      have h2 := afterCacheCheck_exhausted env (canonicalPairId frm t) e he hq
      simp [fetchRealTimeRate, hres, h2]
  · intro e
    constructor
    · intro h
      by_cases hf : isFreshHit env (canonicalPairId frm t) = true
      · exfalso
        unfold isFreshHit at hf
        rcases hc : env.cacheGet (canonicalPairId frm t) with _ | d
        · rw [hc] at hf; simp at hf
        · rw [hc] at hf
          simp only [decide_eq_true_eq] at hf
          have hres := resolveCanonical_fresh env (canonicalPairId frm t) d hc hf
          simp [fetchRealTimeRate, hres] at h
      · simp only [Bool.not_eq_true] at hf
        have hres := resolveCanonical_noFresh env (canonicalPairId frm t) hf
        rcases hc : env.cacheGet (canonicalPairId frm t) with _ | d
        · rw [hc] at hres
          rcases hr : (attemptAIFetchWithRetry env.oracleAt env.nowTimeStr 1 0).res with e2 | ai
          · rcases hq : EMERGENCY_RATES (canonicalPairId frm t) with _ | q
            · have h2 := afterCacheCheck_exhausted env (canonicalPairId frm t) e2 hr hq
              simp [fetchRealTimeRate, hres, h2] at h
              subst h
              exact ⟨rfl, rfl, rfl⟩
            · have h2 := afterCacheCheck_emergency env (canonicalPairId frm t) e2 q hr hq
              simp [fetchRealTimeRate, hres, h2] at h
          · have h2 := afterCacheCheck_ok env (canonicalPairId frm t) none ai hr
            simp [fetchRealTimeRate, hres, h2] at h
        · rw [hc] at hres
          rcases hr : (attemptAIFetchWithRetry env.oracleAt env.nowTimeStr 1 0).res with e2 | ai
          · have h2 := afterCacheCheck_stale env (canonicalPairId frm t) d e2 hr
            simp [fetchRealTimeRate, hres, h2] at h
          · have h2 := afterCacheCheck_ok env (canonicalPairId frm t) (some d) ai hr
            simp [fetchRealTimeRate, hres, h2] at h
    · rintro ⟨hc, hr, hq⟩
      have hnf : isFreshHit env (canonicalPairId frm t) = false := by
        unfold isFreshHit
        rw [hc]
      have hres := resolveCanonical_noFresh env (canonicalPairId frm t) hnf
      rw [hc] at hres
      have h2 := afterCacheCheck_exhausted env (canonicalPairId frm t) e hr hq
      simp [fetchRealTimeRate, hres, h2]

def recC1 : DbRecord :=
  { rate := 1500, parallel_rate := none, summary := "s", sources := [], updated_at := 0 }

def envC1stale : FetchEnv :=
  { cacheGet := fun k => if k = "USD-NGN" then some recC1 else none
    oracleAt := fun _ => .error ⟨some 500, none, "boom"⟩
    nowMs := 2000000
    fmtTime := fun x => "T" ++ toString x
    nowTimeStr := "now"
    writeErr := none }

def envC1empty : FetchEnv := { envC1stale with cacheGet := fun _ => none }

/-- Witness for C1 at concrete environments: a failing oracle falls back to
the stale record when read, else to the emergency entry for `USD-NGN`, and
for `EUR-GBP` (no emergency entry, no record) the oracle error surfaces. -/
theorem oracle_failure_fallback_chain_witness :
    (fetchRealTimeRate envC1stale CurrencyCode.USD CurrencyCode.NGN).result =
      .ok (applyInv CurrencyCode.USD CurrencyCode.NGN (staleQuote envC1stale.fmtTime recC1)) ∧
    (fetchRealTimeRate envC1empty CurrencyCode.USD CurrencyCode.NGN).result =
      .ok (applyInv CurrencyCode.USD CurrencyCode.NGN (emergencyQuote 1580)) ∧
    (fetchRealTimeRate envC1empty CurrencyCode.EUR CurrencyCode.GBP).result =
      .error ⟨some 500, none, "boom"⟩ :=
  ⟨((oracle_failure_fallback_chain envC1stale CurrencyCode.USD CurrencyCode.NGN).1
      ⟨some 500, none, "boom"⟩ (by with_unfolding_all decide)
      (by with_unfolding_all rfl)).1 recC1 rfl,
   ((oracle_failure_fallback_chain envC1empty CurrencyCode.USD CurrencyCode.NGN).1
      ⟨some 500, none, "boom"⟩ (by with_unfolding_all decide)
      (by with_unfolding_all rfl)).2.1 rfl 1580 rfl,
   ((oracle_failure_fallback_chain envC1empty CurrencyCode.EUR CurrencyCode.GBP).2
      ⟨some 500, none, "boom"⟩).mpr ⟨rfl, by with_unfolding_all rfl, rfl⟩⟩

@[simp] theorem fetchEnv_writeErr_cacheGet (env : FetchEnv) (w : Option JsError) :
    ({ env with writeErr := w } : FetchEnv).cacheGet = env.cacheGet := rfl

@[simp] theorem fetchEnv_writeErr_oracleAt (env : FetchEnv) (w : Option JsError) :
    ({ env with writeErr := w } : FetchEnv).oracleAt = env.oracleAt := rfl

@[simp] theorem fetchEnv_writeErr_nowMs (env : FetchEnv) (w : Option JsError) :
    ({ env with writeErr := w } : FetchEnv).nowMs = env.nowMs := rfl

@[simp] theorem fetchEnv_writeErr_fmtTime (env : FetchEnv) (w : Option JsError) :
    ({ env with writeErr := w } : FetchEnv).fmtTime = env.fmtTime := rfl

@[simp] theorem fetchEnv_writeErr_nowTimeStr (env : FetchEnv) (w : Option JsError) :
    ({ env with writeErr := w } : FetchEnv).nowTimeStr = env.nowTimeStr := rfl

/-- All observables of the post-cache step except the write log are
independent of the write outcome. -/
theorem afterCacheCheck_writeErr (env : FetchEnv) (w : Option JsError) (pid : String)
    (st : Option DbRecord) :
    (afterCacheCheck { env with writeErr := w } pid st).1 = (afterCacheCheck env pid st).1 ∧
    (afterCacheCheck { env with writeErr := w } pid st).2.1 =
      (afterCacheCheck env pid st).2.1 ∧
    (afterCacheCheck { env with writeErr := w } pid st).2.2.1 =
      (afterCacheCheck env pid st).2.2.1 := by
  rcases hr : (attemptAIFetchWithRetry env.oracleAt env.nowTimeStr 1 0).res with e | ai
  · rcases st with _ | d
    · rcases hq : EMERGENCY_RATES pid with _ | q
      · have h1 := afterCacheCheck_exhausted env pid e hr hq
        have h2 := afterCacheCheck_exhausted { env with writeErr := w } pid e hr hq
        simp [h1, h2]
      · have h1 := afterCacheCheck_emergency env pid e q hr hq
        have h2 := afterCacheCheck_emergency { env with writeErr := w } pid e q hr hq
        simp [h1, h2]
    · have h1 := afterCacheCheck_stale env pid d e hr
      have h2 := afterCacheCheck_stale { env with writeErr := w } pid d e hr
      simp [h1, h2]
  · have h1 := afterCacheCheck_ok env pid st ai hr
    have h2 := afterCacheCheck_ok { env with writeErr := w } pid st ai hr
    simp [h1, h2]

/-- C9: when the oracle succeeds with `rate > 0` the result is persisted as a
detached fire-and-forget write whose failure is only logged: the returned
result (and the issued upsert) are identical whatever the write outcome, and
the fresh oracle result is returned to the caller unchanged. -/
theorem fire_and_forget_persistence (env : FetchEnv) (frm t : CurrencyCode) :
    (∀ w, (fetchRealTimeRate { env with writeErr := w } frm t).result =
            (fetchRealTimeRate env frm t).result ∧
          (fetchRealTimeRate { env with writeErr := w } frm t).upsert =
            (fetchRealTimeRate env frm t).upsert) ∧
    (∀ d, isFreshHit env (canonicalPairId frm t) = false →
      (attemptAIFetchWithRetry env.oracleAt env.nowTimeStr 1 0).res = .ok d →
      (fetchRealTimeRate env frm t).result = .ok (applyInv frm t d) ∧
      (jsGt0 d.rate = true →
        (fetchRealTimeRate env frm t).upsert =
          some (upsertRowOf (canonicalPairId frm t) env.nowMs d)) ∧
      (jsGt0 d.rate = true → (fetchRealTimeRate env frm t).writeLog = env.writeErr) ∧
      (jsGt0 d.rate = false → (fetchRealTimeRate env frm t).upsert = none)) := by
  constructor
  · intro w
    rcases hc : env.cacheGet (canonicalPairId frm t) with _ | d
    · have hnf : isFreshHit env (canonicalPairId frm t) = false := by
        unfold isFreshHit
        rw [hc]
      have hnf2 : isFreshHit { env with writeErr := w } (canonicalPairId frm t) = false := hnf
      have e1 := resolveCanonical_noFresh env (canonicalPairId frm t) hnf
      have e2 := resolveCanonical_noFresh { env with writeErr := w } (canonicalPairId frm t) hnf2
      rw [hc] at e1
      rw [show ({ env with writeErr := w } : FetchEnv).cacheGet = env.cacheGet from rfl, hc] at e2
      have hacc := afterCacheCheck_writeErr env w (canonicalPairId frm t) none
      constructor
      · simp only [fetchRealTimeRate, e1, e2]
        rw [hacc.1]
      · simp only [fetchRealTimeRate, e1, e2]
        rw [hacc.2.2]
    · by_cases hf : env.nowMs - d.updated_at < CACHE_DURATION_MS
      · have e1 := resolveCanonical_fresh env (canonicalPairId frm t) d hc hf
        have e2 := resolveCanonical_fresh { env with writeErr := w } (canonicalPairId frm t) d hc hf
        constructor
        · simp [fetchRealTimeRate, e1, e2]
        · simp [fetchRealTimeRate, e1, e2]
      · have hnf : isFreshHit env (canonicalPairId frm t) = false := by
          unfold isFreshHit
          rw [hc]
          simpa using hf
        have hnf2 : isFreshHit { env with writeErr := w } (canonicalPairId frm t) = false := hnf
        have e1 := resolveCanonical_noFresh env (canonicalPairId frm t) hnf
        have e2 := resolveCanonical_noFresh { env with writeErr := w } (canonicalPairId frm t) hnf2
        rw [hc] at e1
        rw [show ({ env with writeErr := w } : FetchEnv).cacheGet = env.cacheGet from rfl, hc] at e2
        have hacc := afterCacheCheck_writeErr env w (canonicalPairId frm t) (some d)
        constructor
        · simp only [fetchRealTimeRate, e1, e2]
          rw [hacc.1]
        · simp only [fetchRealTimeRate, e1, e2]
          rw [hacc.2.2]
  · intro d hnf hr
    have e1 := resolveCanonical_noFresh env (canonicalPairId frm t) hnf
    have h2 := afterCacheCheck_ok env (canonicalPairId frm t)
      (env.cacheGet (canonicalPairId frm t)) d hr
    refine ⟨?_, ?_, ?_, ?_⟩
    · simp [fetchRealTimeRate, e1, h2]
    · intro hg
      simp [fetchRealTimeRate, e1, h2, hg]
    · intro hg
      simp [fetchRealTimeRate, e1, h2, hg]
    · intro hg
      simp [fetchRealTimeRate, e1, h2, hg]

def envC9 : FetchEnv :=
  { cacheGet := fun _ => none
    oracleAt := fun _ => .ok ⟨"```json\n\x7b\"rate\": 1600\x7d\n```", []⟩
    nowMs := 12345
    fmtTime := fun _ => ""
    nowTimeStr := "now"
    writeErr := none }

/-- Witness for C9 at a concrete environment: the returned result is the same
whether the write fails or not, and the fresh result is persisted and
returned. -/
theorem fire_and_forget_persistence_witness :
    (fetchRealTimeRate { envC9 with writeErr := some ⟨none, none, "db down"⟩ }
        CurrencyCode.USD CurrencyCode.NGN).result =
      (fetchRealTimeRate envC9 CurrencyCode.USD CurrencyCode.NGN).result ∧
    (fetchRealTimeRate envC9 CurrencyCode.USD CurrencyCode.NGN).result =
      .ok (applyInv CurrencyCode.USD CurrencyCode.NGN
        { rate := some 1600, parallelRate := none, summary := "", lastUpdated := "now"
          sources := [] }) :=
  ⟨((fire_and_forget_persistence envC9 CurrencyCode.USD CurrencyCode.NGN).1
      (some ⟨none, none, "db down"⟩)).1,
   ((fire_and_forget_persistence envC9 CurrencyCode.USD CurrencyCode.NGN).2
      { rate := some 1600, parallelRate := none, summary := "", lastUpdated := "now"
        sources := [] } rfl (by with_unfolding_all rfl)).1⟩

/-- Any upsert issued by a resolution is keyed by the canonical pair id. -/
theorem resolveCanonical_upsert_pair (env : FetchEnv) (pid : String) (u : UpsertRow)
    (h : (resolveCanonical env pid).2.2.1 = some u) : u.pair = pid := by
  by_cases hfr : isFreshHit env pid = true
  · exfalso
    unfold isFreshHit at hfr
    rcases hc : env.cacheGet pid with _ | d
    · rw [hc] at hfr; simp at hfr
    · rw [hc] at hfr
      simp only [decide_eq_true_eq] at hfr
      rw [resolveCanonical_fresh env pid d hc hfr] at h
      simp at h
  · simp only [Bool.not_eq_true] at hfr
    rw [resolveCanonical_noFresh env pid hfr] at h
    rcases hr : (attemptAIFetchWithRetry env.oracleAt env.nowTimeStr 1 0).res with e | ai
    · rcases hcg : env.cacheGet pid with _ | d
      · rcases hq : EMERGENCY_RATES pid with _ | q
        · rw [hcg, afterCacheCheck_exhausted env pid e hr hq] at h
          simp at h
        · rw [hcg, afterCacheCheck_emergency env pid e q hr hq] at h
          simp at h
      · rw [hcg, afterCacheCheck_stale env pid d e hr] at h
        simp at h
    · rw [afterCacheCheck_ok env pid (env.cacheGet pid) ai hr] at h
      by_cases hg : jsGt0 ai.rate = true
      · simp only [hg, if_true] at h
        simp only [Option.some.injEq] at h
        rw [← h]
        rfl
      · simp only [Bool.not_eq_true] at hg
        simp [hg] at h

/-- C2 (amended): resolving `(NGN, foreign)` reads and writes under the same
canonical key `foreign-NGN` as resolving `(foreign, NGN)` — no record is ever
stored under an `NGN-foreign` key — and, under the same environment, the
domestic→foreign result is exactly the inverted canonical result: when
`rate > 0` the two rates are exact reciprocals, and the parallel rates are
exact reciprocals whenever the canonical quote's `parallelRate` is present
and nonzero (a present zero parallel rate inverts to absent instead — see
the counterexample, which refutes the unconditional reciprocity of the
original claim). -/
theorem canonicalization_symmetry (env : FetchEnv) (f : CurrencyCode)
    (hf : f ≠ CurrencyCode.NGN) :
    (fetchRealTimeRate env f CurrencyCode.NGN).readKey = ccStr f ++ "-" ++ "NGN" ∧
    (fetchRealTimeRate env CurrencyCode.NGN f).readKey = ccStr f ++ "-" ++ "NGN" ∧
    (∀ u, (fetchRealTimeRate env f CurrencyCode.NGN).upsert = some u →
        u.pair = ccStr f ++ "-" ++ "NGN" ∧ u.pair ≠ "NGN" ++ "-" ++ ccStr f) ∧
    (∀ u, (fetchRealTimeRate env CurrencyCode.NGN f).upsert = some u →
        u.pair = ccStr f ++ "-" ++ "NGN" ∧ u.pair ≠ "NGN" ++ "-" ++ ccStr f) ∧
    (∀ d0, (fetchRealTimeRate env f CurrencyCode.NGN).result = .ok d0 →
      (fetchRealTimeRate env CurrencyCode.NGN f).result = .ok (invertExchangeData d0) ∧
      (∀ r : ℚ, d0.rate = some r → 0 < r →
        (invertExchangeData d0).rate = some (1 / r) ∧ r * (1 / r) = 1 ∧
        (d0.parallelRate = none → (invertExchangeData d0).parallelRate = none) ∧
        (d0.parallelRate = some (some 0) → (invertExchangeData d0).parallelRate = none) ∧
        (∀ p : ℚ, d0.parallelRate = some (some p) → p ≠ 0 →
          (invertExchangeData d0).parallelRate = some (some (1 / p)) ∧ p * (1 / p) = 1))) := by
  have hkey1 : canonicalPairId f CurrencyCode.NGN = ccStr f ++ "-" ++ "NGN" := by
    unfold canonicalPairId
    rw [if_neg]
    · rfl
    · simp
  have hkey2 : canonicalPairId CurrencyCode.NGN f = ccStr f ++ "-" ++ "NGN" := by
    unfold canonicalPairId
    rw [if_pos ⟨rfl, hf⟩]
    rfl
  have hne : ccStr f ++ "-" ++ "NGN" ≠ "NGN" ++ "-" ++ ccStr f := by
    cases f
    · decide
    · exact absurd rfl hf
    · decide
    · decide
    · decide
  refine ⟨?_, ?_, ?_, ?_, ?_⟩
  · simp [fetchRealTimeRate, hkey1]
  · simp [fetchRealTimeRate, hkey2]
  · intro u hu
    have hp : u.pair = canonicalPairId f CurrencyCode.NGN :=
      resolveCanonical_upsert_pair env (canonicalPairId f CurrencyCode.NGN) u hu
    rw [hkey1] at hp
    exact ⟨hp, hp ▸ hne⟩
  · intro u hu
    have hp : u.pair = canonicalPairId CurrencyCode.NGN f :=
      resolveCanonical_upsert_pair env (canonicalPairId CurrencyCode.NGN f) u hu
    rw [hkey2] at hp
    exact ⟨hp, hp ▸ hne⟩
  · intro d0 h
    have hpid : canonicalPairId CurrencyCode.NGN f = canonicalPairId f CurrencyCode.NGN := by
      rw [hkey1, hkey2]
    constructor
    · rcases hres : (resolveCanonical env (canonicalPairId f CurrencyCode.NGN)).1 with e | d1
      · simp [fetchRealTimeRate, hres] at h
      · simp only [fetchRealTimeRate, hres] at h ⊢
        simp only [applyInv, Except.ok.injEq] at h
        rw [if_neg (by simp)] at h
        rw [hpid, hres]
        simp only [applyInv, Except.ok.injEq]
        simp [hf, h]
    · intro r hr hpos
      have hn : ¬ r ≤ 0 := not_le.mpr hpos
      refine ⟨?_, ?_, ?_, ?_, ?_⟩
      · simp [invertExchangeData, jsLe0, jsRecipN, hr, hn]
      · rw [one_div, mul_inv_cancel₀ (ne_of_gt hpos)]
      · intro hp
        simp [invertExchangeData, jsLe0, jsTruthyPar, hr, hn, hp]
      · intro hp
        simp [invertExchangeData, jsLe0, jsTruthyPar, jsTruthyN, hr, hn, hp]
      · intro p hp hpne
        constructor
        · simp [invertExchangeData, jsLe0, jsTruthyPar, jsTruthyN, jsRecipN, hr, hn, hp, hpne]
        · rw [one_div, mul_inv_cancel₀ hpne]

def envC2 : FetchEnv :=
  { cacheGet := fun _ => none
    oracleAt := fun _ =>
      .ok ⟨"```json\n\x7b\"rate\": 1600, \"parallelRate\": \"0\"\x7d\n```", []⟩
    nowMs := 0
    fmtTime := fun _ => ""
    nowTimeStr := "now"
    writeErr := none }

def q1C2 : ExchangeData :=
  { rate := some 1600, parallelRate := some (some 0), summary := "", lastUpdated := "now"
    sources := [] }

def q2C2 : ExchangeData :=
  { rate := some (1 / 1600 : ℚ), parallelRate := none, summary := "", lastUpdated := "now"
    sources := [] }

set_option maxRecDepth 40000 in
/-- C2 counterexample: under one environment (oracle JSON declares
`"parallelRate": "0"`, a truthy string parsing to zero), `(USD, NGN)` returns
`parallelRate = 0` while `(NGN, USD)` returns an absent `parallelRate`, so
with `rate = 1600 > 0` the two quotes' parallel rates are not exact
reciprocals of each other. -/
theorem canonical_reciprocity_fails_on_zero_parallel :
    (fetchRealTimeRate envC2 CurrencyCode.USD CurrencyCode.NGN).result = .ok q1C2 ∧
    (fetchRealTimeRate envC2 CurrencyCode.NGN CurrencyCode.USD).result = .ok q2C2 ∧
    q1C2.rate = some 1600 ∧ (0 : ℚ) < 1600 ∧
    ¬ (∀ p : ℚ, q1C2.parallelRate = some (some p) →
        ∃ p' : ℚ, q2C2.parallelRate = some (some p') ∧ p * p' = 1) := by
  refine ⟨by with_unfolding_all decide, by with_unfolding_all decide, rfl, by norm_num, ?_⟩
  intro hrecip
  rcases hrecip 0 rfl with ⟨p', hp', _⟩
  simp [q2C2] at hp'

set_option maxRecDepth 40000 in
/-- Witness for C2 (amended) at a concrete environment and pair. -/
theorem canonicalization_symmetry_witness :
    (fetchRealTimeRate envC2 CurrencyCode.USD CurrencyCode.NGN).readKey = "USD" ++ "-" ++ "NGN" ∧
    (fetchRealTimeRate envC2 CurrencyCode.NGN CurrencyCode.USD).readKey = "USD" ++ "-" ++ "NGN" ∧
    (fetchRealTimeRate envC2 CurrencyCode.NGN CurrencyCode.USD).result =
      .ok (invertExchangeData q1C2) :=
  ⟨(canonicalization_symmetry envC2 CurrencyCode.USD (by decide)).1,
   (canonicalization_symmetry envC2 CurrencyCode.USD (by decide)).2.1,
   ((canonicalization_symmetry envC2 CurrencyCode.USD (by decide)).2.2.2.2 q1C2
      (by with_unfolding_all decide)).1⟩

/-- C6: a well-formed fenced JSON block with a truthy `rate` parsing to a
nonzero number determines the detected rate (never the regex fallback, no
matter what decoy numbers the prose contains), and the fenced block is
stripped from the returned summary; only when the JSON path produced no
truthy rate is the regex fallback consulted, and it selects the first
thousands-grouped token of the year-stripped text that is positive, below
10000, not an integer and not 2024/2025. -/
theorem parser_priority_and_fallback (resp : OracleResponse) (ns : String) :
    (∀ w g v rv q, fencedMatch resp.text = some (w, g) → g ≠ "" →
      jsonParse g = some v → jLookup v "rate" = some rv → jsTruthyJson rv = true →
      jsParseFloatOfJson rv = some q → q ≠ 0 →
      detectedRateOf resp.text = some q ∧
      (summarySelOf resp.text ≠ SummarySel.crash →
        parseOracleResponse resp ns =
          .ok { rate := some q, parallelRate := parallelRateOf resp.text,
                summary := jsTrim (stripJsonFence (chosenSummaryText resp.text)),
                lastUpdated := ns, sources := resp.chunks.filterMap id })) ∧
    (jsTruthyN (jsonRateOf resp.text) = false →
      (∀ v, regexRate resp.text = some v → detectedRateOf resp.text = some v) ∧
      (regexRate resp.text = none → detectedRateOf resp.text = jsonRateOf resp.text)) ∧
    (∀ v, regexRate resp.text = some v →
      ∃ pre post,
        ((globalNumMatches (stripYears resp.text.data).length
            (stripYears resp.text.data)).map tokenVal) = pre ++ v :: post ∧
        validRate v = true ∧ ∀ x ∈ pre, validRate x = false) := by
  refine ⟨?_, ?_, ?_⟩
  · intro w g v rv q hfm hg hjp hlr htr hpf hq
    have hjm : jsonMatchOf resp.text = some (w, some g) := by
      unfold jsonMatchOf
      rw [hfm]
    have hjs : jsonStrOf (w, some g) = g := by
      unfold jsonStrOf
      simp [hg]
    have hparsed : jsonParsedOf resp.text = some v := by
      unfold jsonParsedOf
      rw [hjm]
      simp [hjs, hjp]
    have hjr : jsonRateOf resp.text = some q := by
      unfold jsonRateOf
      simp [hparsed, hlr, htr, hpf]
    have htq : jsTruthyN (jsonRateOf resp.text) = true := by
      rw [hjr]
      simp [jsTruthyN, hq]
    have hdet : detectedRateOf resp.text = some q := by
      unfold detectedRateOf
      rw [htq, if_pos rfl, hjr]
    refine ⟨hdet, ?_⟩
    intro hnc
    unfold parseOracleResponse
    rw [if_neg (by rw [hdet]; simp [hq])]
    cases hs : summarySelOf resp.text with
    | crash => exact absurd hs hnc
    | keep => rw [hdet]
    | useStr s => rw [hdet]
  · intro hfalse
    constructor
    · intro v hv
      unfold detectedRateOf
      rw [hfalse, hv]
      simp
    · intro hv
      unfold detectedRateOf
      rw [hfalse, hv]
      simp
  · intro v hv
    unfold regexRate at hv
    rw [List.find?_eq_some] at hv
    rcases hv with ⟨hval, pre, post, heq, hpre⟩
    exact ⟨pre, post, heq, hval, fun x hx => by simpa using hpre x hx⟩

def respC6 : OracleResponse :=
  ⟨"9,123.45 ```json\n\x7b\"rate\": 2.5\x7d\n```", []⟩

set_option maxRecDepth 40000 in
/-- Witness for C6: a response containing both a fenced JSON rate and a
numerically plausible decoy in the prose yields the JSON-declared rate. -/
theorem parser_priority_and_fallback_witness :
    detectedRateOf respC6.text = some (5 / 2 : ℚ) ∧
    regexRate "2024 x 1,550.25" = some (6201 / 4 : ℚ) :=
  ⟨((parser_priority_and_fallback respC6 "now").1 _ _ (.obj [("rate", .num (5 / 2))])
      (.num (5 / 2)) (5 / 2) (by with_unfolding_all rfl) (by decide)
      (by with_unfolding_all rfl) rfl (by with_unfolding_all rfl)
      (by with_unfolding_all rfl) (by norm_num)).1,
   by with_unfolding_all rfl⟩

/-- The two directional keys of a pair of distinct currencies differ. -/
theorem pairKeys_ne (frm t : CurrencyCode) (h : frm ≠ t) :
    ccStr frm ++ "-" ++ ccStr t ≠ ccStr t ++ "-" ++ ccStr frm := by
  cases frm <;> cases t <;> first | exact absurd rfl h | decide

/-- C7 (amended): when `forceRefresh` is false, the requested key is not
cached and the inverse key is, the consumer returns and stores the inverted
quote without invoking the orchestrator (the original claim omitted the
direct-hit precedence — see the counterexample); when the orchestrator is
invoked and succeeds, the quote is stored under the requested key and the
computed inverse is stored under the swapped key exactly when `rate > 0`;
on orchestrator failure a generic error is surfaced and the cache is not
mutated. -/
theorem session_cache_policy (cache : String → Option ExchangeData) (frm t : CurrencyCode)
    (fetchResult : Except JsError ExchangeData) :
    (∀ inv, cache (ccStr frm ++ "-" ++ ccStr t) = none →
        cache (ccStr t ++ "-" ++ ccStr frm) = some inv →
        loadData cache frm t false fetchResult =
          ⟨updateCache cache (ccStr frm ++ "-" ++ ccStr t) (sessionInvert inv),
           some (sessionInvert inv), none, false⟩) ∧
    (∀ d, fetchResult = .ok d → frm ≠ t →
        (loadData cache frm t true fetchResult).invoked = true ∧
        (loadData cache frm t true fetchResult).dataSet = some d ∧
        (loadData cache frm t true fetchResult).cache (ccStr frm ++ "-" ++ ccStr t) = some d ∧
        (jsGt0 d.rate = true →
          (loadData cache frm t true fetchResult).cache (ccStr t ++ "-" ++ ccStr frm) =
            some (proactiveInverse d)) ∧
        (jsGt0 d.rate = false →
          (loadData cache frm t true fetchResult).cache (ccStr t ++ "-" ++ ccStr frm) =
            cache (ccStr t ++ "-" ++ ccStr frm))) ∧
    (∀ e, fetchResult = .error e →
        loadData cache frm t true fetchResult = ⟨cache, none, some genericErrorMsg, true⟩ ∧
        (cache (ccStr frm ++ "-" ++ ccStr t) = none →
          cache (ccStr t ++ "-" ++ ccStr frm) = none →
          loadData cache frm t false fetchResult =
            ⟨cache, none, some genericErrorMsg, true⟩)) := by
  refine ⟨?_, ?_, ?_⟩
  · intro inv h1 h2
    simp [loadData, h1, h2]
  · intro d hd hne
    have hk := pairKeys_ne frm t hne
    refine ⟨?_, ?_, ?_, ?_, ?_⟩
    · simp [loadData, loadFetch, hd]
    · simp [loadData, loadFetch, hd]
    · by_cases hg : jsGt0 d.rate = true
      · simp [loadData, loadFetch, hd, hg, updateCache, hk]
      · simp only [Bool.not_eq_true] at hg
        simp [loadData, loadFetch, hd, hg, updateCache]
    · intro hg
      simp [loadData, loadFetch, hd, hg, updateCache]
    · intro hg
      simp [loadData, loadFetch, hd, hg, updateCache, Ne.symm hk]
  · intro e he
    constructor
    · simp [loadData, loadFetch, he]
    · intro h1 h2
      simp [loadData, loadFetch, he, h1, h2]

def q1C7 : ExchangeData := ⟨some 2, none, "direct", "t1", []⟩

def q2C7 : ExchangeData := ⟨some 4, some (some 8), "inverse", "t2", []⟩

def cacheC7 : String → Option ExchangeData :=
  fun k => if k = "USD-NGN" then some q1C7 else if k = "NGN-USD" then some q2C7 else none

/-- C7 counterexample: with both directional keys cached and `forceRefresh`
false, the consumer returns the direct entry untouched — not the quote
inverted from the inverse entry, contrary to the claim read unconditionally. -/
theorem session_cache_direct_hit_precedes_inverse :
    (loadData cacheC7 CurrencyCode.USD CurrencyCode.NGN false (.error zeroRateError)).dataSet =
      some q1C7 ∧
    (loadData cacheC7 CurrencyCode.USD CurrencyCode.NGN false (.error zeroRateError)).invoked =
      false ∧
    some q1C7 ≠ some (sessionInvert q2C7) := by
  refine ⟨by with_unfolding_all rfl, by with_unfolding_all rfl, ?_⟩
  with_unfolding_all decide

def cacheC7inv : String → Option ExchangeData :=
  fun k => if k = "USD-NGN" then some q2C7 else none

/-- Witness for C7 (amended) at concrete inputs: an inverse-only cache hit is
served inverted without invoking the orchestrator, and a failed fetch leaves
the cache untouched with the generic error. -/
theorem session_cache_policy_witness :
    loadData cacheC7inv CurrencyCode.NGN CurrencyCode.USD false (.error zeroRateError) =
      ⟨updateCache cacheC7inv ("NGN" ++ "-" ++ "USD") (sessionInvert q2C7),
       some (sessionInvert q2C7), none, false⟩ ∧
    loadData cacheC7inv CurrencyCode.USD CurrencyCode.NGN true (.error zeroRateError) =
      ⟨cacheC7inv, none, some genericErrorMsg, true⟩ :=
  ⟨(session_cache_policy cacheC7inv CurrencyCode.NGN CurrencyCode.USD
      (.error zeroRateError)).1 q2C7 (by with_unfolding_all rfl)
      (by with_unfolding_all rfl),
   ((session_cache_policy cacheC7inv CurrencyCode.USD CurrencyCode.NGN
      (.error zeroRateError)).2.2 zeroRateError rfl).1⟩
